import Mathlib

/-!
Shallow embedding of the profile/resource persistence core of
`src/qgis_templates_symbology/conf.py`.

The underlying `QgsSettings` store (an external capability, spec section 6) is
modelled as an association list from hierarchical keys to stored values.  A key
is the list of its path segments; `beginGroup`/`endGroup` scoping in the source
simply prefixes segments, so every operation here works with absolute keys.
Identifier strings (profile and template/symbology ids) are uuid strings in the
source; they are modelled as plain atomic path segments, and `uuid.UUID`
round-trips between a uuid and its string are modelled as the identity on those
strings.

Python exceptions are modelled with `Except`: an operation that the source lets
raise returns `.error`.  Mutating manager operations additionally return the
resulting store and the number of `profiles_settings_updated.emit()` calls they
performed, so that notification counting and "no write happened before the
raise" are expressible.
-/

/-- Decidable equality of `Except`, for evaluating the model on concrete
inputs. -/
instance {ε α : Type _} [DecidableEq ε] [DecidableEq α] :
    DecidableEq (Except ε α) := fun x y =>
  match x, y with
  | .ok a, .ok b =>
    match decEq a b with
    | isTrue h => isTrue (h ▸ rfl)
    | isFalse h => isFalse (fun hc => h (Except.ok.inj hc))
  | .error a, .error b =>
    match decEq a b with
    | isTrue h => isTrue (h ▸ rfl)
    | isFalse h => isFalse (fun hc => h (Except.error.inj hc))
  | .ok _, .error _ => isFalse (fun h => Except.noConfusion h)
  | .error _, .ok _ => isFalse (fun h => Except.noConfusion h)

namespace QTS

/-- A storage key: the `/`-separated path of a settings entry, as its list of
segments. -/
abbrev Key := List String

/-- A stored value.  The plugin only ever stores strings or Python `None`
(`setValue(key, None)` in `clear_current_profile`); `none` models `None`. -/
abbrev Value := Option String

/-- The settings store: an association list from keys to values.  Writes push
a new entry on the front, and lookups take the entry nearest the front, so a
later write shadows an earlier one at the same key. -/
abbrev Store := List (Key × Value)

/-- Boolean test that `g` is an initial run of segments of `k`, i.e. `k` lies
at or below the group `g`. -/
def keyBelow : Key → Key → Bool
  | [], _ => true
  | _ :: _, [] => false
  | a :: as, b :: bs => a == b && keyBelow as bs

/-- Raw lookup of the visible value stored at key `k`, if any entry for `k`
exists. -/
def Store.lookupKey (s : Store) (k : Key) : Option Value :=
  (s.find? (fun e => decide (e.1 = k))).map Prod.snd

/-- `settings.value(key, default)`. -/
def Store.valueAt (s : Store) (k : Key) (default : Value) : Value :=
  match s.lookupKey k with
  | some v => v
  | none => default

/-- `settings.setValue(key, value)`. -/
def Store.setValue (s : Store) (k : Key) (v : Value) : Store :=
  (k, v) :: s

/-- `settings.remove(key)`: QSettings removes the key together with every
subkey below it. -/
def Store.removeTree (s : Store) (k : Key) : Store :=
  s.filter (fun e => !(keyBelow k e.1))

/-- `settings.childGroups()` at group `g`: the names of the immediate children
of `g` that are themselves groups (i.e. have at least one key strictly below
them), each name listed once. -/
def Store.childGroups (s : Store) (g : Key) : List String :=
  (s.filterMap (fun e =>
    if keyBelow g e.1 ∧ g.length + 1 < e.1.length
    then e.1.get? g.length
    else none)).dedup

/-- Python exceptions that the modelled code can raise. -/
inductive PyErr
  | valueError (msg : String)
  | typeError (msg : String)
  | attributeError (msg : String)
deriving DecidableEq

/-- A Python `datetime.datetime` value, by its fields.  The `datetime`
constructor in Python validates the field ranges, captured here by
`PyDateTime.Valid`. -/
structure PyDateTime where
  year : Nat
  month : Nat
  day : Nat
  hour : Nat
  minute : Nat
  second : Nat
  microsecond : Nat
deriving DecidableEq

/-- Gregorian leap-year rule, as used by Python's calendar validation. -/
def isLeapYear (y : Nat) : Bool :=
  y % 4 == 0 && (y % 100 != 0 || y % 400 == 0)

/-- Number of days of month `m` in year `y`. -/
def daysInMonth (y m : Nat) : Nat :=
  if m = 2 then (if isLeapYear y then 29 else 28)
  else if m = 4 ∨ m = 6 ∨ m = 9 ∨ m = 11 then 30
  else 31

/-- Field validity of a Python datetime, restricted to four-digit years
(`strftime("%Y")` pads to four digits exactly on this range, which covers
every datetime the plugin ever writes). -/
def PyDateTime.Valid (d : PyDateTime) : Prop :=
  1000 ≤ d.year ∧ d.year ≤ 9999 ∧ 1 ≤ d.month ∧ d.month ≤ 12 ∧
  1 ≤ d.day ∧ d.day ≤ daysInMonth d.year d.month ∧
  d.hour ≤ 23 ∧ d.minute ≤ 59 ∧ d.second ≤ 59 ∧ d.microsecond ≤ 999999

instance (d : PyDateTime) : Decidable d.Valid := by
  unfold PyDateTime.Valid; infer_instance

/-- Numeric key realising the field-lexicographic order of Python datetime
comparison: for field-valid datetimes, `a < b` in Python iff
`a.key < b.key`. -/
def PyDateTime.key (d : PyDateTime) : Nat :=
  (((((d.year * 13 + d.month) * 32 + d.day) * 24 + d.hour) * 60 + d.minute)
      * 60 + d.second) * 1000000 + d.microsecond

/-- The `w` decimal digits of `n`, most significant first (zero padded,
truncating higher digits, exactly like a width-`w` zero-padded rendering of
`n < 10 ^ w`). -/
def natDigits : Nat → Nat → List Nat
  | 0, _ => []
  | w + 1, n => natDigits w (n / 10) ++ [n % 10]

/-- The character of a decimal digit. -/
def digitChar (d : Nat) : Char := Char.ofNat (48 + d)

/-- Zero-padded width-`w` decimal rendering of `n`, as characters. -/
def padNum (w n : Nat) : List Char := (natDigits w n).map digitChar

/-- `created_date.strftime("%Y-%m-%dT%H:%M:%S.%fZ")` from
`save_profile_settings`: fixed-format rendering with microsecond precision and
a trailing literal `Z`. -/
def strftimeDate (d : PyDateTime) : String :=
  ⟨padNum 4 d.year ++ ['-'] ++ padNum 2 d.month ++ ['-'] ++ padNum 2 d.day ++
   ['T'] ++ padNum 2 d.hour ++ [':'] ++ padNum 2 d.minute ++ [':'] ++
   padNum 2 d.second ++ ['.'] ++ padNum 6 d.microsecond ++ ['Z']⟩

/-- Value of a decimal digit character. -/
def charDigit (c : Char) : Option Nat :=
  if 48 ≤ c.toNat ∧ c.toNat ≤ 57 then some (c.toNat - 48) else none

/-- Parse a run of decimal digit characters, most significant first, on top of
an accumulator; fails on any non-digit. -/
def parseDigitsAux : List Char → Nat → Option Nat
  | [], acc => some acc
  | c :: cs, acc =>
    match charDigit c with
    | some d => parseDigitsAux cs (10 * acc + d)
    | none => none

/-- Consume exactly `w` digit characters from the front of `l` and return their
value together with the rest of `l`. -/
def parseField (w : Nat) (l : List Char) : Option (Nat × List Char) :=
  if w ≤ l.length then
    match parseDigitsAux (l.take w) 0 with
    | some n => some (n, l.drop w)
    | none => none
  else none

/-- Consume one expected literal character. -/
def expectChar (c : Char) : List Char → Option (List Char)
  | [] => none
  | x :: xs => if x = c then some xs else none

/-- Assemble the parsed fields into a datetime, validating the field ranges as
the Python `datetime` constructor does. -/
def dateFromFields (y mo d h mi se f : Nat) : Option PyDateTime :=
  if 1 ≤ y ∧ 1 ≤ mo ∧ mo ≤ 12 ∧ 1 ≤ d ∧ d ≤ daysInMonth y mo ∧
      h ≤ 23 ∧ mi ≤ 59 ∧ se ≤ 59
  then some ⟨y, mo, d, h, mi, se, f⟩
  else none

/-- Stage `%fZ` (and end of input) of the date parser. -/
def parseMicroZ (y mo d h mi se : Nat) (l : List Char) : Option PyDateTime :=
  match parseField 6 l with
  | some (f, l) =>
    match expectChar 'Z' l with
    | some [] => dateFromFields y mo d h mi se f
    | some (_ :: _) => none
    | none => none
  | none => none

/-- Stage `%S.` of the date parser. -/
def parseSec (y mo d h mi : Nat) (l : List Char) : Option PyDateTime :=
  match parseField 2 l with
  | some (se, l) =>
    match expectChar '.' l with
    | some l => parseMicroZ y mo d h mi se l
    | none => none
  | none => none

/-- Stage `%M:` of the date parser. -/
def parseMin (y mo d h : Nat) (l : List Char) : Option PyDateTime :=
  match parseField 2 l with
  | some (mi, l) =>
    match expectChar ':' l with
    | some l => parseSec y mo d h mi l
    | none => none
  | none => none

/-- Stage `%H:` of the date parser. -/
def parseHour (y mo d : Nat) (l : List Char) : Option PyDateTime :=
  match parseField 2 l with
  | some (h, l) =>
    match expectChar ':' l with
    | some l => parseMin y mo d h l
    | none => none
  | none => none

/-- Stage `%dT` of the date parser. -/
def parseDay (y mo : Nat) (l : List Char) : Option PyDateTime :=
  match parseField 2 l with
  | some (d, l) =>
    match expectChar 'T' l with
    | some l => parseHour y mo d l
    | none => none
  | none => none

/-- Stage `%m-` of the date parser. -/
def parseMonth (y : Nat) (l : List Char) : Option PyDateTime :=
  match parseField 2 l with
  | some (mo, l) =>
    match expectChar '-' l with
    | some l => parseDay y mo l
    | none => none
  | none => none

/-- Parser for the fixed date format `%Y-%m-%dT%H:%M:%S.%fZ`, over the value
range that `strftimeDate` emits (four-digit year, six-digit microseconds). -/
def parseDateChars (l : List Char) : Option PyDateTime :=
  match parseField 4 l with
  | some (y, l) =>
    match expectChar '-' l with
    | some l => parseMonth y l
    | none => none
  | none => none

/-- `datetime.datetime.strptime(s, "%Y-%m-%dT%H:%M:%S.%fZ")`: a failed parse
raises `ValueError`. -/
def strptimeDate (s : String) : Except PyErr PyDateTime :=
  match parseDateChars s.data with
  | some d => .ok d
  | none => .error (.valueError "time data does not match format %Y-%m-%dT%H:%M:%S.%fZ")

/-- Modelled from the spec: the `Template` business object is defined in
`models.py`, which is not under `src/`; per spec section 3 it carries an `id`
and a `name`, and `TemplateSettings` adds no further fields.
`TemplateSettings.from_qgs_settings` reads both fields with default `None`,
hence the `Value` field type. -/
structure TemplateSettings where
  id : Value
  name : Value
deriving DecidableEq

/-- Modelled from the spec: the `Symbology` business object is defined in
`models.py`, which is not under `src/`; per spec section 3 it has the same
shape as `Template` (`id` and `name`), and `SymbologySettings` adds no further
fields. -/
structure SymbologySettings where
  id : Value
  name : Value
deriving DecidableEq

/-- The `ProfileSettings` dataclass.  `id` is the uuid of the profile as a
string; `name` and `path` are the stored values (possibly `None`); the decoded
`created_date` is optional because `from_qgs_settings` passes `None` for an
absent stored date. -/
structure ProfileSettings where
  id : String
  name : Value
  path : Value
  templates : List TemplateSettings
  symbology : List SymbologySettings
  created_date : Option PyDateTime
deriving DecidableEq

/-- Python `str()` applied to an optional string: `str(None) = "None"`. -/
def strOfValue (v : Value) : String := v.getD "None"

def BASE_GROUP_NAME : String := "qgis_templates_symbology"

def PROFILE_GROUP_NAME : String := "profiles"

def SELECTED_PROFILE_KEY : String := "selected_profile"

def TEMPLATE_GROUP_NAME : String := "templates"

def SYMBOLOGY_GROUP_NAME : String := "symbology"

/-- The group holding all profile subtrees:
`qgis_templates_symbology/profiles`. -/
def profilesRoot : Key := [BASE_GROUP_NAME, PROFILE_GROUP_NAME]

/-- `SettingsManager._get_profile_settings_base`. -/
def profileSettingsBase (identifier : String) : Key :=
  [BASE_GROUP_NAME, PROFILE_GROUP_NAME, identifier]

/-- `SettingsManager._get_template_settings_base`. -/
def templateSettingsBase (profile_identifier identifier : String) : Key :=
  [BASE_GROUP_NAME, PROFILE_GROUP_NAME, profile_identifier,
   TEMPLATE_GROUP_NAME, identifier]

/-- `SettingsManager._get_symbology_settings_base`. -/
def symbologySettingsBase (profile_identifier identifier : String) : Key :=
  [BASE_GROUP_NAME, PROFILE_GROUP_NAME, profile_identifier,
   SYMBOLOGY_GROUP_NAME, identifier]

/-- The key of the active-profile pointer:
`qgis_templates_symbology/selected_profile`. -/
def selectedProfileKey : Key := [BASE_GROUP_NAME, SELECTED_PROFILE_KEY]

/-- `SettingsManager.get_templates`: enumerate the child groups of the
profile's `templates` group and decode each via
`TemplateSettings.from_qgs_settings` (which reads `name` and `id` with default
`None`). -/
def get_templates (s : Store) (profile_identifier : String) :
    List TemplateSettings :=
  (s.childGroups (profileSettingsBase profile_identifier ++
      [TEMPLATE_GROUP_NAME])).map
    (fun tid =>
      { name := s.valueAt
          (templateSettingsBase profile_identifier tid ++ ["name"]) none
        id := s.valueAt
          (templateSettingsBase profile_identifier tid ++ ["id"]) none })

/-- `SettingsManager.get_symbology`: enumerate the child groups of the
profile's `symbology` group and decode each via
`SymbologySettings.from_qgs_settings`. -/
def get_symbology (s : Store) (profile_identifier : String) :
    List SymbologySettings :=
  (s.childGroups (profileSettingsBase profile_identifier ++
      [SYMBOLOGY_GROUP_NAME])).map
    (fun sid =>
      { name := s.valueAt
          (symbologySettingsBase profile_identifier sid ++ ["name"]) none
        id := s.valueAt
          (symbologySettingsBase profile_identifier sid ++ ["id"]) none })

/-- `ProfileSettings.from_qgs_settings`.  The source wraps the child lookups
and the date parse in `try/except AttributeError`; none of the operations in
the body raise `AttributeError` on a string-valued store (a failed `strptime`
raises `ValueError`), so the `except` branch is unreachable here and a parse
failure propagates as the error. -/
def ProfileSettings.from_qgs_settings (identifier : String) (s : Store) :
    Except PyErr ProfileSettings :=
  match s.valueAt (profileSettingsBase identifier ++ ["created_date"]) none with
  | some raw =>
    match strptimeDate raw with
    | .ok d =>
      .ok ⟨identifier, s.valueAt (profileSettingsBase identifier ++ ["name"]) none,
        s.valueAt (profileSettingsBase identifier ++ ["path"]) none,
        get_templates s identifier, get_symbology s identifier, some d⟩
    | .error e => .error e
  | none =>
    .ok ⟨identifier, s.valueAt (profileSettingsBase identifier ++ ["name"]) none,
      s.valueAt (profileSettingsBase identifier ++ ["path"]) none,
      get_templates s identifier, get_symbology s identifier, none⟩

/-- `SettingsManager.get_profile_settings`. -/
def get_profile_settings (s : Store) (identifier : String) :
    Except PyErr ProfileSettings :=
  ProfileSettings.from_qgs_settings identifier s

/-- The accumulation loop of `list_profiles`: decode each identifier in turn,
appending the results; the first decode failure propagates. -/
def decode_profiles (s : Store) : List String → Except PyErr (List ProfileSettings)
  | [] => .ok []
  | pid :: rest =>
    match ProfileSettings.from_qgs_settings pid s with
    | .ok p =>
      match decode_profiles s rest with
      | .ok ps => .ok (p :: ps)
      | .error e => .error e
    | .error e => .error e

/-- `SettingsManager.list_profiles`: decode every child group of the profiles
root.  A decode failure in any profile propagates. -/
def list_profiles (s : Store) : Except PyErr (List ProfileSettings) :=
  decode_profiles s (s.childGroups profilesRoot)

/-- `SettingsManager.save_template`: writes the `name` and `id` keys under the
profile-scoped template path; emits no notification (the second component is
the emission count). -/
def save_template (s : Store) (profile : ProfileSettings)
    (template_settings : TemplateSettings) : Store × Nat :=
  let base := templateSettingsBase profile.id (strOfValue template_settings.id)
  (((s.setValue (base ++ ["name"]) template_settings.name).setValue
      (base ++ ["id"]) template_settings.id), 0)

/-- `SettingsManager.save_symbology`: writes the `name` and `id` keys under the
profile-scoped symbology path; emits no notification. -/
def save_symbology (s : Store) (profile : ProfileSettings)
    (symbology_settings : SymbologySettings) : Store × Nat :=
  let base := symbologySettingsBase profile.id (strOfValue symbology_settings.id)
  (((s.setValue (base ++ ["name"]) symbology_settings.name).setValue
      (base ++ ["id"]) symbology_settings.id), 0)

/-- `SettingsManager.save_profile_settings`.  The source first renders
`created_date` with `strftime` (raising `AttributeError` before any write when
`created_date` is `None`), then saves every child template and symbology, then
the profile's scalar fields, then emits once.  The source guards each child
loop with `if profile_settings.templates:`; a loop over an empty list writes
nothing either way, so the guard is dropped. -/
def save_profile_settings (s : Store) (p : ProfileSettings) :
    Except PyErr Unit × Store × Nat :=
  match p.created_date with
  | none =>
    (.error (.attributeError "NoneType object has no attribute strftime"), s, 0)
  | some d =>
    let created := strftimeDate d
    let s1 := p.templates.foldl (fun st t => (save_template st p t).1) s
    let s2 := p.symbology.foldl (fun st t => (save_symbology st p t).1) s1
    let base := profileSettingsBase p.id
    (.ok (),
      ((s2.setValue (base ++ ["name"]) p.name).setValue
          (base ++ ["path"]) p.path).setValue
        (base ++ ["created_date"]) (some created),
      1)

/-- `SettingsManager.clear_current_profile`: writes `None` to the pointer key
and emits once. -/
def clear_current_profile (s : Store) : Store × Nat :=
  (s.setValue selectedProfileKey none, 1)

/-- `SettingsManager.get_current_profile`: reads the pointer; when present,
resolves it via `get_profile_settings` (whose errors propagate). -/
def get_current_profile (s : Store) : Except PyErr (Option ProfileSettings) :=
  match s.valueAt selectedProfileKey none with
  | some current =>
    match get_profile_settings s current with
    | .ok p => .ok (some p)
    | .error e => .error e
  | none => .ok none

/-- `SettingsManager.is_current_profile`. -/
def is_current_profile (s : Store) (identifier : String) :
    Except PyErr Bool :=
  match get_current_profile s with
  | .ok none => .ok false
  | .ok (some p) => .ok (decide (p.id = identifier))
  | .error e => .error e

/-- `SettingsManager.delete_profile`: when the target is the active profile,
first calls `clear_current_profile` (which itself emits), then removes the
profile subtree, then emits. -/
def delete_profile (s : Store) (identifier : String) :
    Except PyErr Unit × Store × Nat :=
  match is_current_profile s identifier with
  | .error e => (.error e, s, 0)
  | .ok isCur =>
    let sn := if isCur then clear_current_profile s else (s, 0)
    (.ok (), sn.1.removeTree (profilesRoot ++ [identifier]), sn.2 + 1)

/-- `SettingsManager.delete_all_profiles`: removes every child group under the
profiles root, then calls `clear_current_profile` (which itself emits), then
emits. -/
def delete_all_profiles (s : Store) : Store × Nat :=
  let s1 := (s.childGroups profilesRoot).foldl
    (fun st name => st.removeTree (profilesRoot ++ [name])) s
  let sn := clear_current_profile s1
  (sn.1, sn.2 + 1)

/-- `SettingsManager.set_current_profile`: raises `ValueError` before any
write when the identifier is not among the listed profiles, otherwise writes
the pointer and emits once.  The source's message interpolates `{id!r}` where
`id` is the Python builtin (not the parameter), so the message is the constant
shown here. -/
def set_current_profile (s : Store) (identifier : String) :
    Except PyErr Unit × Store × Nat :=
  match list_profiles s with
  | .error e => (.error e, s, 0)
  | .ok profiles =>
    if identifier ∈ profiles.map ProfileSettings.id then
      (.ok (), s.setValue selectedProfileKey (some identifier), 1)
    else
      (.error (.valueError "Invalid profile identifier: <built-in function id>"),
        s, 0)

/-- Python comparison `a > b` on two optional datetimes: raises `TypeError`
when either side is `None`; otherwise field-lexicographic comparison, realised
on the numeric key. -/
def pyGtDate : Option PyDateTime → Option PyDateTime → Except PyErr Bool
  | some a, some b => .ok (decide (b.key < a.key))
  | _, _ =>
    .error (.typeError "not supported between instances of datetime and NoneType")

/-- The `for` loop of `get_latest_profile`: keep the running latest, replacing
it whenever a profile's `created_date` is strictly greater. -/
def latest_loop : List ProfileSettings → ProfileSettings →
    Except PyErr ProfileSettings
  | [], latest => .ok latest
  | p :: rest, latest =>
    match pyGtDate p.created_date latest.created_date with
    | .ok true => latest_loop rest p
    | .ok false => latest_loop rest latest
    | .error e => .error e

/-- `SettingsManager.get_latest_profile`: `None` when no profiles exist,
otherwise the loop above started from the first listed profile and run over
the whole list. -/
def get_latest_profile (s : Store) : Except PyErr (Option ProfileSettings) :=
  match list_profiles s with
  | .error e => .error e
  | .ok profile_list =>
    match profile_list with
    | [] => .ok none
    | p0 :: _ =>
      match latest_loop profile_list p0 with
      | .ok q => .ok (some q)
      | .error e => .error e

/-- `SettingsManager.is_profile`: whether a profile with the identifier is
among the listed profiles. -/
def is_profile (s : Store) (identifier : String) : Except PyErr Bool :=
  match list_profiles s with
  | .ok profiles => .ok (profiles.any (fun p => p.id = identifier))
  | .error e => .error e

/-- Comparison key of a decoded profile's `created_date` (`0` for an absent
date; only used under hypotheses that make every date present). -/
def cdKey (p : ProfileSettings) : Nat :=
  (p.created_date.map PyDateTime.key).getD 0

/-- The invariant of spec section 3: the active-profile pointer, when present,
names a profile that exists in storage (a child group of the profiles
root). -/
def ActivePtrInv (s : Store) : Prop :=
  ∀ id, s.valueAt selectedProfileKey none = some id →
    id ∈ s.childGroups profilesRoot

/-- Concrete store with two saved profiles, used to evaluate the theorems. -/
def storeTwoProfiles : Store := [
  (profileSettingsBase "a1" ++ ["name"], some "Default"),
  (profileSettingsBase "a1" ++ ["path"], some "/tmp/a"),
  (profileSettingsBase "a1" ++ ["created_date"], some "2021-01-02T03:04:05.000006Z"),
  (profileSettingsBase "b2" ++ ["name"], some "Custom"),
  (profileSettingsBase "b2" ++ ["path"], some "/tmp/b"),
  (profileSettingsBase "b2" ++ ["created_date"], some "2022-01-02T03:04:05.000006Z")]

/-- Concrete store whose single profile carries a malformed `created_date`. -/
def storeBadDate : Store :=
  [(profileSettingsBase "a1" ++ ["created_date"], some "not-a-date"),
   (profileSettingsBase "a1" ++ ["name"], some "Legacy")]

/-- Concrete store whose single profile has no `created_date` key. -/
def storeNoDate : Store :=
  [(profileSettingsBase "a1" ++ ["name"], some "Partial"),
   (profileSettingsBase "a1" ++ ["path"], some "/tmp/p")]

/-- Concrete store holding only an unrelated key, so that no profile base path
has ever been written. -/
def storeOtherKey : Store := [([BASE_GROUP_NAME, "other"], some "x")]

/-- Concrete valid profile with one template and one symbology child. -/
def profileFresh : ProfileSettings :=
  ⟨"c3", some "Fresh", some "/tmp/c", [⟨some "t1", some "Basic"⟩],
   [⟨some "s1", some "Sym"⟩], some ⟨2023, 6, 7, 8, 9, 10, 11⟩⟩

/-- Concrete template record. -/
def templateT2 : TemplateSettings := ⟨some "t2", some "Extra"⟩

/-- Concrete symbology record. -/
def symbologyS2 : SymbologySettings := ⟨some "s2", some "ExtraSym"⟩

/-- Concrete store with two saved profiles and an active pointer at the
first. -/
def storeWithActive : Store :=
  (selectedProfileKey, some "a1") :: storeTwoProfiles

/-- The decoded form of `storeTwoProfiles`. -/
def listTwoProfiles : List ProfileSettings :=
  [⟨"a1", some "Default", some "/tmp/a", [], [], some ⟨2021, 1, 2, 3, 4, 5, 6⟩⟩,
   ⟨"b2", some "Custom", some "/tmp/b", [], [], some ⟨2022, 1, 2, 3, 4, 5, 6⟩⟩]

/-- The store entries that saving the template list `l` of profile `p`
prepends (later templates nearer the front). -/
def templateEntries (p : ProfileSettings) (l : List TemplateSettings) : Store :=
  (l.reverse.map (fun t =>
    [(templateSettingsBase p.id (strOfValue t.id) ++ ["id"], t.id),
     (templateSettingsBase p.id (strOfValue t.id) ++ ["name"], t.name)])).flatten

/-- The store entries that saving the symbology list `l` of profile `p`
prepends. -/
def symbologyEntries (p : ProfileSettings) (l : List SymbologySettings) : Store :=
  (l.reverse.map (fun t =>
    [(symbologySettingsBase p.id (strOfValue t.id) ++ ["id"], t.id),
     (symbologySettingsBase p.id (strOfValue t.id) ++ ["name"], t.name)])).flatten

/-- The scalar entries written by `save_profile_settings` for date `d`. -/
def profileScalarEntries (p : ProfileSettings) (d : PyDateTime) : Store :=
  [(profileSettingsBase p.id ++ ["created_date"], some (strftimeDate d)),
   (profileSettingsBase p.id ++ ["path"], p.path),
   (profileSettingsBase p.id ++ ["name"], p.name)]

/-- The pure step of the `get_latest_profile` loop: replace the running latest
when the candidate's `created_date` is strictly greater. -/
def stepLatest (latest p : ProfileSettings) : ProfileSettings :=
  if cdKey latest < cdKey p then p else latest

/-! ### Basic lemmas about keys and the store -/

@[simp]
theorem keyBelow_nil (k : Key) : keyBelow [] k = true := rfl

@[simp]
theorem keyBelow_cons_nil (a : String) (as : Key) :
    keyBelow (a :: as) [] = false := rfl

@[simp]
theorem keyBelow_cons_cons (a b : String) (as bs : Key) :
    keyBelow (a :: as) (b :: bs) = (a == b && keyBelow as bs) := rfl

theorem keyBelow_refl_append (g rest : Key) : keyBelow g (g ++ rest) = true := by
  induction g with
  | nil => rfl
  | cons a as ih => simp [ih]

theorem keyBelow_of_append {a : Key} (b : Key) {k : Key}
    (h : keyBelow (a ++ b) k = true) : keyBelow a k = true := by
  induction a generalizing k with
  | nil => rfl
  | cons x as ih =>
    cases k with
    | nil => simp at h
    | cons y ks =>
      simp only [List.cons_append, keyBelow_cons_cons, Bool.and_eq_true,
        beq_iff_eq] at h ⊢
      exact ⟨h.1, ih h.2⟩

theorem keyBelow_append_single {g : Key} {x : String} {k : Key} :
    keyBelow (g ++ [x]) k = true ↔
      keyBelow g k = true ∧ k.get? g.length = some x := by
  induction g generalizing k with
  | nil =>
    cases k with
    | nil => simp
    | cons y ks =>
      simp only [List.nil_append, keyBelow_cons_cons, keyBelow_nil,
        Bool.and_true, beq_iff_eq, List.length_nil, List.get?_cons_zero,
        Option.some.injEq, true_and]
      exact eq_comm
  | cons a as ih =>
    cases k with
    | nil => simp
    | cons y ks => simp [ih, and_assoc]

@[simp]
theorem lookupKey_nil (k : Key) : Store.lookupKey [] k = none := rfl

theorem lookupKey_cons (e : Key × Value) (s : Store) (k : Key) :
    Store.lookupKey (e :: s) k =
      if e.1 = k then some e.2 else s.lookupKey k := by
  by_cases h : e.1 = k
  · rw [Store.lookupKey, List.find?_cons_of_pos _ (by simp [h]), if_pos h]
    rfl
  · rw [Store.lookupKey, List.find?_cons_of_neg _ (by simp [h]), if_neg h]
    rfl

theorem lookupKey_append (s t : Store) (k : Key) :
    Store.lookupKey (s ++ t) k =
      ((s.lookupKey k).rec (t.lookupKey k) (fun v => some v) :
        Option Value) := by
  induction s with
  | nil => simp
  | cons e s ih =>
    by_cases h : e.1 = k <;>
      simp [List.cons_append, lookupKey_cons, h, ih]

theorem lookupKey_append_of_none {s : Store} (t : Store) {k : Key}
    (h : s.lookupKey k = none) :
    Store.lookupKey (s ++ t) k = t.lookupKey k := by
  rw [lookupKey_append, h]

theorem lookupKey_append_of_some {s : Store} (t : Store) {k : Key} {v : Value}
    (h : s.lookupKey k = some v) :
    Store.lookupKey (s ++ t) k = some v := by
  rw [lookupKey_append, h]

theorem lookupKey_eq_none_iff {s : Store} {k : Key} :
    s.lookupKey k = none ↔ ∀ e ∈ s, e.1 ≠ k := by
  simp [Store.lookupKey, List.find?_eq_none]

theorem mem_childGroups {s : Store} {g : Key} {x : String} :
    x ∈ s.childGroups g ↔
      ∃ e ∈ s, keyBelow g e.1 = true ∧ g.length + 1 < e.1.length ∧
        e.1.get? g.length = some x := by
  simp only [Store.childGroups, List.mem_dedup, List.mem_filterMap]
  constructor
  · rintro ⟨e, he, hx⟩
    split at hx
    · rename_i hc
      exact ⟨e, he, hc.1, hc.2, hx⟩
    · cases hx
  · rintro ⟨e, he, h1, h2, h3⟩
    refine ⟨e, he, ?_⟩
    rw [if_pos ⟨h1, h2⟩]
    exact h3

theorem lookupKey_removeTree (s : Store) (r k : Key) :
    (s.removeTree r).lookupKey k =
      if keyBelow r k = true then none else s.lookupKey k := by
  induction s with
  | nil =>
    simp only [Store.removeTree, List.filter_nil, lookupKey_nil]
    split <;> rfl
  | cons e s ih =>
    simp only [Store.removeTree, List.filter_cons] at ih ⊢
    by_cases hb : keyBelow r e.1
    · rw [if_neg (show ¬ ((!keyBelow r e.1) = true) by simp [hb])]
      rw [ih, lookupKey_cons]
      by_cases hk : keyBelow r k
      · simp [hk]
      · have hek : e.1 ≠ k := fun h => hk (h ▸ hb)
        simp [hk, hek]
    · rw [if_pos (show (!keyBelow r e.1) = true by simp [hb])]
      rw [lookupKey_cons, lookupKey_cons, ih]
      by_cases hk : e.1 = k
      · have hnk : ¬ (keyBelow r k = true) := by
          rw [← hk]; simp [hb]
        simp [hk, hnk]
      · simp [hk]

/-! ### Lemmas about the date format round trip -/

theorem natDigits_length (w n : Nat) : (natDigits w n).length = w := by
  induction w generalizing n with
  | zero => rfl
  | succ w ih => simp [natDigits, ih]

theorem padNum_length (w n : Nat) : (padNum w n).length = w := by
  simp [padNum, natDigits_length]

theorem charDigit_digitChar {d : Nat} (h : d < 10) :
    charDigit (digitChar d) = some d := by
  interval_cases d <;> decide

theorem parseDigitsAux_append (l1 l2 : List Char) (acc : Nat) :
    parseDigitsAux (l1 ++ l2) acc =
      (parseDigitsAux l1 acc).bind (fun a => parseDigitsAux l2 a) := by
  induction l1 generalizing acc with
  | nil => rfl
  | cons c cs ih =>
    simp only [List.cons_append, parseDigitsAux]
    cases charDigit c with
    | none => rfl
    | some d => simp [ih]

theorem parseDigitsAux_padNum {w n : Nat} (h : n < 10 ^ w) (acc : Nat) :
    parseDigitsAux (padNum w n) acc = some (acc * 10 ^ w + n) := by
  induction w generalizing n acc with
  | zero =>
    have : n = 0 := by omega
    simp [padNum, natDigits, parseDigitsAux, this]
  | succ w ih =>
    have hdiv : n / 10 < 10 ^ w := by
      rw [Nat.div_lt_iff_lt_mul (by omega)]
      calc n < 10 ^ (w + 1) := h
        _ = 10 ^ w * 10 := by ring
    have hmod : n % 10 < 10 := Nat.mod_lt _ (by omega)
    simp only [padNum, natDigits, List.map_append, List.map_cons, List.map_nil]
    rw [show (natDigits w (n / 10)).map digitChar = padNum w (n / 10) from rfl]
    rw [parseDigitsAux_append, ih hdiv]
    simp only [Option.some_bind, parseDigitsAux, charDigit_digitChar hmod]
    congr 1
    have heq : 10 * (acc * 10 ^ w + n / 10) + n % 10
        = acc * 10 ^ (w + 1) + (10 * (n / 10) + n % 10) := by ring
    rw [heq]
    omega

theorem parseField_padNum {w n : Nat} (h : n < 10 ^ w) (rest : List Char) :
    parseField w (padNum w n ++ rest) = some (n, rest) := by
  unfold parseField
  rw [if_pos (by simp [padNum_length] : w ≤ (padNum w n ++ rest).length)]
  rw [List.take_left' (padNum_length w n), List.drop_left' (padNum_length w n)]
  rw [parseDigitsAux_padNum h 0]
  simp

theorem expectChar_cons (c : Char) (rest : List Char) :
    expectChar c (c :: rest) = some rest := by
  simp [expectChar]

theorem daysInMonth_le_31 (y m : Nat) : daysInMonth y m ≤ 31 := by
  unfold daysInMonth
  split
  · split <;> omega
  · split <;> omega

theorem parseDateChars_pad {n : Nat} (h : n < 10 ^ 4) (rest : List Char) :
    parseDateChars (padNum 4 n ++ ('-' :: rest)) = parseMonth n rest := by
  unfold parseDateChars
  rw [parseField_padNum h]
  rfl

theorem parseMonth_pad (y : Nat) {n : Nat} (h : n < 10 ^ 2) (rest : List Char) :
    parseMonth y (padNum 2 n ++ ('-' :: rest)) = parseDay y n rest := by
  unfold parseMonth
  rw [parseField_padNum h]
  rfl

theorem parseDay_pad (y mo : Nat) {n : Nat} (h : n < 10 ^ 2) (rest : List Char) :
    parseDay y mo (padNum 2 n ++ ('T' :: rest)) = parseHour y mo n rest := by
  unfold parseDay
  rw [parseField_padNum h]
  rfl

theorem parseHour_pad (y mo d : Nat) {n : Nat} (h : n < 10 ^ 2) (rest : List Char) :
    parseHour y mo d (padNum 2 n ++ (':' :: rest)) = parseMin y mo d n rest := by
  unfold parseHour
  rw [parseField_padNum h]
  rfl

theorem parseMin_pad (y mo d h : Nat) {n : Nat} (hn : n < 10 ^ 2) (rest : List Char) :
    parseMin y mo d h (padNum 2 n ++ (':' :: rest)) = parseSec y mo d h n rest := by
  unfold parseMin
  rw [parseField_padNum hn]
  rfl

theorem parseSec_pad (y mo d h mi : Nat) {n : Nat} (hn : n < 10 ^ 2) (rest : List Char) :
    parseSec y mo d h mi (padNum 2 n ++ ('.' :: rest)) = parseMicroZ y mo d h mi n rest := by
  unfold parseSec
  rw [parseField_padNum hn]
  rfl

theorem parseMicroZ_pad (y mo d h mi se : Nat) {n : Nat} (hn : n < 10 ^ 6) :
    parseMicroZ y mo d h mi se (padNum 6 n ++ ['Z']) = dateFromFields y mo d h mi se n := by
  unfold parseMicroZ
  rw [parseField_padNum hn]
  rfl

theorem parseDateChars_strftime {d : PyDateTime} (hv : d.Valid) :
    parseDateChars (strftimeDate d).data = some d := by
  obtain ⟨h1, h2, h3, h4, h5, h6, h7, h8, h9, h10⟩ := hv
  have hy : d.year < 10 ^ 4 := by norm_num; omega
  have hmo : d.month < 10 ^ 2 := by norm_num; omega
  have hdd : d.day < 10 ^ 2 := by
    have := daysInMonth_le_31 d.year d.month
    norm_num; omega
  have hh : d.hour < 10 ^ 2 := by norm_num; omega
  have hmi : d.minute < 10 ^ 2 := by norm_num; omega
  have hse : d.second < 10 ^ 2 := by norm_num; omega
  have hf : d.microsecond < 10 ^ 6 := by norm_num; omega
  have hdata : (strftimeDate d).data =
      padNum 4 d.year ++ ('-' :: (padNum 2 d.month ++ ('-' :: (padNum 2 d.day ++
      ('T' :: (padNum 2 d.hour ++ (':' :: (padNum 2 d.minute ++ (':' ::
      (padNum 2 d.second ++ ('.' :: (padNum 6 d.microsecond ++ ['Z'])))))))))))) := by
    simp [strftimeDate]
  rw [hdata, parseDateChars_pad hy, parseMonth_pad _ hmo, parseDay_pad _ _ hdd,
    parseHour_pad _ _ _ hh, parseMin_pad _ _ _ _ hmi, parseSec_pad _ _ _ _ _ hse,
    parseMicroZ_pad _ _ _ _ _ _ hf]
  unfold dateFromFields
  rw [if_pos ⟨by omega, h3, h4, h5, h6, h7, h8, h9⟩]

theorem strptime_strftime {d : PyDateTime} (hv : d.Valid) :
    strptimeDate (strftimeDate d) = .ok d := by
  unfold strptimeDate
  rw [parseDateChars_strftime hv]

/-! ### Claims C1, C2, C3, C6, C8, C9, C10 -/

/-- C2, amended: the claim that a present-but-unparseable `created_date` is
tolerated is false; instead, whenever the stored `created_date` of a profile is
present but `strptime` fails on it, decoding the profile raises that
`ValueError` (the source catches only `AttributeError`). -/
theorem spec_c2_amended (s : Store) (idf raw : String) (e : PyErr)
    (hraw : s.valueAt (profileSettingsBase idf ++ ["created_date"]) none = some raw)
    (he : strptimeDate raw = .error e) :
    get_profile_settings s idf = .error e := by
  unfold get_profile_settings ProfileSettings.from_qgs_settings
  rw [hraw]
  simp [he]

/-- C2, counterexample: on a concrete store whose profile has
`created_date = "not-a-date"`, `get_profile_settings` raises (returns an
error) instead of decoding with the current time, refuting the claim that the
decode does not raise. -/
theorem spec_c2_counterexample :
    get_profile_settings storeBadDate "a1" =
      .error (.valueError "time data does not match format %Y-%m-%dT%H:%M:%S.%fZ") := by
  decide

/-- C2, witness: the amended theorem applied at the concrete malformed
store. -/
theorem spec_c2_witness :
    get_profile_settings storeBadDate "a1" =
      .error (.valueError "time data does not match format %Y-%m-%dT%H:%M:%S.%fZ") ∨ False :=
  Or.inl (spec_c2_amended storeBadDate "a1" "not-a-date" _ (by decide) (by decide))

/-- C3, amended: when the stored `created_date` of a profile is absent, the
decode does not fail, but the decoded `created_date` is `None` (an empty
value), not the current time: `from_qgs_settings` passes `None` explicitly in
its absent branch. -/
theorem spec_c3_amended (s : Store) (idf : String)
    (habs : s.valueAt (profileSettingsBase idf ++ ["created_date"]) none = none) :
    get_profile_settings s idf =
      .ok ⟨idf, s.valueAt (profileSettingsBase idf ++ ["name"]) none,
        s.valueAt (profileSettingsBase idf ++ ["path"]) none,
        get_templates s idf, get_symbology s idf, none⟩ := by
  unfold get_profile_settings ProfileSettings.from_qgs_settings
  rw [habs]

/-- C3, counterexample: on a concrete store whose profile has no
`created_date` key, the decoded profile has `created_date = none` — an empty
value, not the current time for any possible clock reading — refuting the
claim. -/
theorem spec_c3_counterexample :
    get_profile_settings storeNoDate "a1" =
      .ok ⟨"a1", some "Partial", some "/tmp/p", [], [], none⟩ := by
  decide

/-- C3, witness: the amended theorem applied at the concrete dateless
store. -/
theorem spec_c3_witness :
    get_profile_settings storeNoDate "a1" =
      .ok ⟨"a1", Store.valueAt storeNoDate (profileSettingsBase "a1" ++ ["name"]) none,
        Store.valueAt storeNoDate (profileSettingsBase "a1" ++ ["path"]) none,
        get_templates storeNoDate "a1", get_symbology storeNoDate "a1", none⟩ :=
  spec_c3_amended storeNoDate "a1" (by decide)

/-- C1, amended: `save_profile_settings` (of a profile whose `created_date`
is present), a successful `set_current_profile`, and `clear_current_profile`
each emit exactly one change notification; `delete_profile` emits one when the
target is not the active profile but two when it is (the inner
`clear_current_profile` also emits); `delete_all_profiles` always emits two
(one from the inner `clear_current_profile` and one of its own). -/
theorem spec_c1_amended :
    (∀ s p, p.created_date.isSome → (save_profile_settings s p).2.2 = 1) ∧
    (∀ s id, (set_current_profile s id).1 = .ok () →
      (set_current_profile s id).2.2 = 1) ∧
    (∀ s, (clear_current_profile s).2 = 1) ∧
    (∀ s id, is_current_profile s id = .ok false →
      (delete_profile s id).2.2 = 1) ∧
    (∀ s id, is_current_profile s id = .ok true →
      (delete_profile s id).2.2 = 2) ∧
    (∀ s, (delete_all_profiles s).2 = 2) := by
  refine ⟨?_, ?_, ?_, ?_, ?_, ?_⟩
  · intro s p h
    cases hc : p.created_date with
    | none => rw [hc] at h; cases h
    | some d => simp [save_profile_settings, hc]
  · intro s id h
    cases hl : list_profiles s with
    | error e => simp [set_current_profile, hl] at h
    | ok profiles =>
      by_cases hm : id ∈ profiles.map ProfileSettings.id
      · simp [set_current_profile, hl, hm]
      · simp [set_current_profile, hl, hm] at h
  · intro s; rfl
  · intro s id h
    simp [delete_profile, h]
  · intro s id h
    simp [delete_profile, h, clear_current_profile]
  · intro s; rfl

/-- C1, counterexample: on a concrete store, `delete_all_profiles` emits two
notifications, not the single batched notification the claim asserts. -/
theorem spec_c1_counterexample :
    (delete_all_profiles storeTwoProfiles).2 = 2 ∧
    ¬ (delete_all_profiles storeTwoProfiles).2 = 1 := by
  decide

/-- C1, witness: the amended theorem applied at concrete stores for each
operation. -/
theorem spec_c1_witness :
    (save_profile_settings ([] : Store) profileFresh).2.2 = 1 ∧
    (set_current_profile storeTwoProfiles "b2").2.2 = 1 ∧
    (clear_current_profile ([] : Store)).2 = 1 ∧
    (delete_profile storeTwoProfiles "a1").2.2 = 1 ∧
    (delete_profile storeWithActive "a1").2.2 = 2 ∧
    (delete_all_profiles storeTwoProfiles).2 = 2 :=
  ⟨spec_c1_amended.1 _ _ (by decide),
   spec_c1_amended.2.1 _ _ (by decide),
   spec_c1_amended.2.2.1 _,
   spec_c1_amended.2.2.2.1 _ _ (by decide),
   spec_c1_amended.2.2.2.2.1 _ _ (by decide),
   spec_c1_amended.2.2.2.2.2 _⟩

/-- C6: `set_current_profile id` succeeds and writes the active pointer
exactly when `id` is among the ids of the profiles returned by
`list_profiles`; for every other id it fails with the `ValueError` raised by
the invalid-reference check. -/
theorem spec_c6 (s : Store) (l : List ProfileSettings)
    (hl : list_profiles s = .ok l) (id : String) :
    (id ∈ l.map ProfileSettings.id →
      set_current_profile s id =
        (.ok (), s.setValue selectedProfileKey (some id), 1)) ∧
    (id ∉ l.map ProfileSettings.id →
      set_current_profile s id =
        (.error (.valueError "Invalid profile identifier: <built-in function id>"),
          s, 0)) := by
  unfold set_current_profile
  rw [hl]
  constructor
  · intro h; simp [h]
  · intro h; simp [h]

/-- C6, witness: the theorem applied at a concrete two-profile store, on a
listed and an unlisted id. -/
theorem spec_c6_witness :
    set_current_profile storeTwoProfiles "b2" =
      (.ok (), Store.setValue storeTwoProfiles selectedProfileKey (some "b2"), 1) ∧
    set_current_profile storeTwoProfiles "zz" =
      (.error (.valueError "Invalid profile identifier: <built-in function id>"),
        storeTwoProfiles, 0) :=
  ⟨(spec_c6 storeTwoProfiles listTwoProfiles (by decide) "b2").1 (by decide),
   (spec_c6 storeTwoProfiles listTwoProfiles (by decide) "zz").2 (by decide)⟩

/-- C9: for an id not among the listed profiles, `set_current_profile` raises
before performing any write: the store is returned unchanged and no change
notification is emitted. -/
theorem spec_c9 (s : Store) (l : List ProfileSettings)
    (hl : list_profiles s = .ok l) (id : String)
    (h : id ∉ l.map ProfileSettings.id) :
    (set_current_profile s id).1 =
      .error (.valueError "Invalid profile identifier: <built-in function id>") ∧
    (set_current_profile s id).2.1 = s ∧
    (set_current_profile s id).2.2 = 0 := by
  unfold set_current_profile
  rw [hl]
  simp [h]

/-- C9, witness: the theorem applied at a concrete store and unlisted id. -/
theorem spec_c9_witness :
    (set_current_profile storeTwoProfiles "zz").1 =
      .error (.valueError "Invalid profile identifier: <built-in function id>") ∧
    (set_current_profile storeTwoProfiles "zz").2.1 = storeTwoProfiles ∧
    (set_current_profile storeTwoProfiles "zz").2.2 = 0 :=
  spec_c9 storeTwoProfiles listTwoProfiles (by decide) "zz" (by decide)

/-- C8: for a profile id whose base path has never been written,
`get_profile_settings` does not signal not-found: it returns a profile whose
scalar fields are the `None` defaults and whose template and symbology
collections are empty. -/
theorem spec_c8 (s : Store) (idf : String)
    (hfresh : ∀ e ∈ s, keyBelow (profileSettingsBase idf) e.1 = false) :
    get_profile_settings s idf = .ok ⟨idf, none, none, [], [], none⟩ := by
  have hval : ∀ x : String,
      s.valueAt (profileSettingsBase idf ++ [x]) none = none := by
    intro x
    have hnone : s.lookupKey (profileSettingsBase idf ++ [x]) = none := by
      rw [lookupKey_eq_none_iff]
      intro e he heq
      have h1 := hfresh e he
      rw [heq, keyBelow_refl_append] at h1
      simp at h1
    rw [Store.valueAt, hnone]
  have hg : ∀ gname : String,
      s.childGroups (profileSettingsBase idf ++ [gname]) = [] := by
    intro gname
    rw [List.eq_nil_iff_forall_not_mem]
    intro x hx
    rw [mem_childGroups] at hx
    obtain ⟨e, he, hb, _, _⟩ := hx
    have h1 := hfresh e he
    have h2 : keyBelow (profileSettingsBase idf) e.1 = true :=
      keyBelow_of_append [gname] hb
    rw [h1] at h2
    cases h2
  unfold get_profile_settings ProfileSettings.from_qgs_settings
    get_templates get_symbology
  rw [hval "created_date", hg TEMPLATE_GROUP_NAME, hg SYMBOLOGY_GROUP_NAME,
    hval "name", hval "path"]
  rfl

/-- C8, witness: the theorem applied at a concrete store containing only an
unrelated key. -/
theorem spec_c8_witness :
    get_profile_settings storeOtherKey "zz" =
      .ok ⟨"zz", none, none, [], [], none⟩ :=
  spec_c8 storeOtherKey "zz" (by decide)

/-- C10: `save_template` and `save_symbology` write only the `name` and `id`
keys under the profile-scoped template/symbology path of the record, leave the
value of every other key unchanged, and emit no change notification. -/
theorem spec_c10 (s : Store) (p : ProfileSettings) (t : TemplateSettings)
    (u : SymbologySettings) :
    (save_template s p t).2 = 0 ∧ (save_symbology s p u).2 = 0 ∧
    (save_template s p t).1.lookupKey
      (templateSettingsBase p.id (strOfValue t.id) ++ ["name"]) = some t.name ∧
    (save_template s p t).1.lookupKey
      (templateSettingsBase p.id (strOfValue t.id) ++ ["id"]) = some t.id ∧
    (∀ k : Key, k ≠ templateSettingsBase p.id (strOfValue t.id) ++ ["name"] →
      k ≠ templateSettingsBase p.id (strOfValue t.id) ++ ["id"] →
      (save_template s p t).1.lookupKey k = s.lookupKey k) ∧
    (save_symbology s p u).1.lookupKey
      (symbologySettingsBase p.id (strOfValue u.id) ++ ["name"]) = some u.name ∧
    (save_symbology s p u).1.lookupKey
      (symbologySettingsBase p.id (strOfValue u.id) ++ ["id"]) = some u.id ∧
    (∀ k : Key, k ≠ symbologySettingsBase p.id (strOfValue u.id) ++ ["name"] →
      k ≠ symbologySettingsBase p.id (strOfValue u.id) ++ ["id"] →
      (save_symbology s p u).1.lookupKey k = s.lookupKey k) := by
  refine ⟨rfl, rfl, ?_, ?_, ?_, ?_, ?_, ?_⟩
  · rw [save_template]
    simp [Store.setValue, lookupKey_cons, templateSettingsBase]
  · rw [save_template]
    simp [Store.setValue, lookupKey_cons]
  · intro k h1 h2
    rw [save_template]
    simp only [Store.setValue, lookupKey_cons]
    rw [if_neg (fun h => h2 h.symm), if_neg (fun h => h1 h.symm)]
  · rw [save_symbology]
    simp [Store.setValue, lookupKey_cons, symbologySettingsBase]
  · rw [save_symbology]
    simp [Store.setValue, lookupKey_cons]
  · intro k h1 h2
    rw [save_symbology]
    simp only [Store.setValue, lookupKey_cons]
    rw [if_neg (fun h => h2 h.symm), if_neg (fun h => h1 h.symm)]

/-- C10, witness: the theorem applied at a concrete store, checking in
particular that the active pointer key is untouched. -/
theorem spec_c10_witness :
    (save_template storeTwoProfiles profileFresh templateT2).2 = 0 ∧
    (save_template storeTwoProfiles profileFresh templateT2).1.lookupKey
      (templateSettingsBase "c3" "t2" ++ ["id"]) = some (some "t2") ∧
    (save_template storeTwoProfiles profileFresh templateT2).1.lookupKey
      selectedProfileKey = Store.lookupKey storeTwoProfiles selectedProfileKey := by
  refine ⟨(spec_c10 storeTwoProfiles profileFresh templateT2 symbologyS2).1, ?_, ?_⟩
  · exact (spec_c10 storeTwoProfiles profileFresh templateT2 symbologyS2).2.2.2.1
  · exact (spec_c10 storeTwoProfiles profileFresh templateT2 symbologyS2).2.2.2.2.1
      selectedProfileKey (by decide) (by decide)

/-! ### Claim C5 -/

theorem foldl_save_template_eq (p : ProfileSettings) (l : List TemplateSettings)
    (s : Store) :
    l.foldl (fun st t => (save_template st p t).1) s = templateEntries p l ++ s := by
  induction l generalizing s with
  | nil => simp [templateEntries]
  | cons t ts ih =>
    simp only [List.foldl_cons, ih]
    simp [templateEntries, save_template, Store.setValue, List.reverse_cons,
      List.map_append, List.flatten_append, List.append_assoc]

theorem foldl_save_symbology_eq (p : ProfileSettings) (l : List SymbologySettings)
    (s : Store) :
    l.foldl (fun st t => (save_symbology st p t).1) s = symbologyEntries p l ++ s := by
  induction l generalizing s with
  | nil => simp [symbologyEntries]
  | cons t ts ih =>
    simp only [List.foldl_cons, ih]
    simp [symbologyEntries, save_symbology, Store.setValue, List.reverse_cons,
      List.map_append, List.flatten_append, List.append_assoc]

theorem mem_templateEntries {p : ProfileSettings} {l : List TemplateSettings}
    {e : Key × Value} :
    e ∈ templateEntries p l ↔
      ∃ t ∈ l, e = (templateSettingsBase p.id (strOfValue t.id) ++ ["id"], t.id) ∨
        e = (templateSettingsBase p.id (strOfValue t.id) ++ ["name"], t.name) := by
  simp [templateEntries, List.mem_flatten, List.mem_map, List.mem_reverse]

theorem mem_symbologyEntries {p : ProfileSettings} {l : List SymbologySettings}
    {e : Key × Value} :
    e ∈ symbologyEntries p l ↔
      ∃ t ∈ l, e = (symbologySettingsBase p.id (strOfValue t.id) ++ ["id"], t.id) ∨
        e = (symbologySettingsBase p.id (strOfValue t.id) ++ ["name"], t.name) := by
  simp [symbologyEntries, List.mem_flatten, List.mem_map, List.mem_reverse]

theorem lookupKey_templateEntries_short {p : ProfileSettings}
    {l : List TemplateSettings} {k : Key} (hk : k.length ≠ 6) :
    (templateEntries p l).lookupKey k = none := by
  rw [lookupKey_eq_none_iff]
  intro e he heq
  rw [mem_templateEntries] at he
  obtain ⟨t, _, he | he⟩ := he <;>
    · rw [he] at heq
      apply hk
      rw [← heq]
      simp [templateSettingsBase]

theorem lookupKey_symbologyEntries_short {p : ProfileSettings}
    {l : List SymbologySettings} {k : Key} (hk : k.length ≠ 6) :
    (symbologyEntries p l).lookupKey k = none := by
  rw [lookupKey_eq_none_iff]
  intro e he heq
  rw [mem_symbologyEntries] at he
  obtain ⟨t, _, he | he⟩ := he <;>
    · rw [he] at heq
      apply hk
      rw [← heq]
      simp [symbologySettingsBase]

theorem save_profile_store_eq (s : Store) (p : ProfileSettings) (d : PyDateTime)
    (hd : p.created_date = some d) :
    (save_profile_settings s p).2.1 =
      profileScalarEntries p d ++
        (symbologyEntries p p.symbology ++ (templateEntries p p.templates ++ s)) := by
  unfold save_profile_settings
  rw [hd]
  simp [foldl_save_template_eq, foldl_save_symbology_eq, profileScalarEntries,
    Store.setValue]

theorem childGroups_mono_suffix {s2 : Store} (s1 : Store) {g : Key} {x : String}
    (h : x ∈ s2.childGroups g) : x ∈ Store.childGroups (s1 ++ s2) g := by
  rw [mem_childGroups] at h ⊢
  obtain ⟨e, he, h1, h2, h3⟩ := h
  exact ⟨e, List.mem_append_right _ he, h1, h2, h3⟩

theorem get_profile_settings_ok_id {s : Store} {idf : String} {p : ProfileSettings}
    (h : get_profile_settings s idf = .ok p) : p.id = idf := by
  unfold get_profile_settings ProfileSettings.from_qgs_settings at h
  split at h
  · split at h
    · cases h; rfl
    · cases h
  · cases h; rfl

theorem decode_profiles_map_id {s : Store} {ids : List String}
    {l : List ProfileSettings} (h : decode_profiles s ids = .ok l) :
    l.map ProfileSettings.id = ids := by
  induction ids generalizing l with
  | nil =>
    unfold decode_profiles at h
    cases h
    rfl
  | cons a as ih =>
    unfold decode_profiles at h
    cases hp : ProfileSettings.from_qgs_settings a s with
    | error e => rw [hp] at h; cases h
    | ok p =>
      rw [hp] at h
      cases hrest : decode_profiles s as with
      | error e => rw [hrest] at h; cases h
      | ok ps =>
        rw [hrest] at h
        cases h
        simp [ih hrest, get_profile_settings_ok_id (show get_profile_settings s a = .ok p from hp)]

theorem list_profiles_map_id {s : Store} {l : List ProfileSettings}
    (h : list_profiles s = .ok l) :
    l.map ProfileSettings.id = s.childGroups profilesRoot := by
  unfold list_profiles at h
  exact decode_profiles_map_id h

theorem is_current_false_ptr {s : Store} {id curr : String}
    (h : is_current_profile s id = .ok false)
    (hcurr : s.valueAt selectedProfileKey none = some curr) : curr ≠ id := by
  unfold is_current_profile get_current_profile at h
  rw [hcurr] at h
  cases hp : get_profile_settings s curr with
  | error e => simp [hp] at h
  | ok p =>
    simp [hp] at h
    intro heq
    exact h (by rw [get_profile_settings_ok_id hp, heq])


theorem ptr_ne_scalar (pid x : String) :
    profileSettingsBase pid ++ [x] ≠ selectedProfileKey := by
  simp [profileSettingsBase, selectedProfileKey]

theorem keyBelow_profileTree_ptr (id : String) :
    keyBelow (profilesRoot ++ [id]) selectedProfileKey = false := by
  simp [profilesRoot, selectedProfileKey]

theorem valueAt_removeTree_of_not_below (s : Store) (r k : Key) (dflt : Value)
    (h : keyBelow r k = false) :
    (s.removeTree r).valueAt k dflt = s.valueAt k dflt := by
  unfold Store.valueAt
  rw [lookupKey_removeTree, if_neg (by simp [h])]

/-- C5: every Settings Manager operation preserves the invariant that the
active-profile pointer, when present, references a profile existing in
storage; `set_current_profile` only writes a listed id, and deleting the
active profile clears the pointer so that `get_current_profile` afterwards
returns none. -/
theorem spec_c5 :
    (∀ s p, ActivePtrInv s → ActivePtrInv (save_profile_settings s p).2.1) ∧
    (∀ s id, ActivePtrInv s → ActivePtrInv (delete_profile s id).2.1) ∧
    (∀ s, ActivePtrInv (delete_all_profiles s).1) ∧
    (∀ s id, ActivePtrInv s → ActivePtrInv (set_current_profile s id).2.1) ∧
    (∀ s, ActivePtrInv (clear_current_profile s).1) ∧
    (∀ s id, is_current_profile s id = .ok true →
      get_current_profile (delete_profile s id).2.1 = .ok none) := by
  refine ⟨?_, ?_, ?_, ?_, ?_, ?_⟩
  · -- save_profile_settings
    intro s p hinv
    cases hd : p.created_date with
    | none =>
      have hst : (save_profile_settings s p).2.1 = s := by
        simp [save_profile_settings, hd]
      rw [hst]; exact hinv
    | some d =>
      rw [save_profile_store_eq s p d hd]
      intro id0 hid0
      have h1 : (profileScalarEntries p d).lookupKey selectedProfileKey = none := by
        rw [lookupKey_eq_none_iff]
        intro e he heq
        simp [profileScalarEntries] at he
        rcases he with he | he | he <;>
          (rw [he] at heq; exact ptr_ne_scalar _ _ heq)
      have h2 : (symbologyEntries p p.symbology).lookupKey selectedProfileKey = none :=
        lookupKey_symbologyEntries_short (by decide)
      have h3 : (templateEntries p p.templates).lookupKey selectedProfileKey = none :=
        lookupKey_templateEntries_short (by decide)
      have hval : (profileScalarEntries p d ++
          (symbologyEntries p p.symbology ++
            (templateEntries p p.templates ++ s))).valueAt selectedProfileKey none =
          s.valueAt selectedProfileKey none := by
        unfold Store.valueAt
        rw [lookupKey_append_of_none _ h1, lookupKey_append_of_none _ h2,
          lookupKey_append_of_none _ h3]
      rw [hval] at hid0
      exact childGroups_mono_suffix _ (childGroups_mono_suffix _
        (childGroups_mono_suffix _ (hinv id0 hid0)))
  · -- delete_profile
    intro s id hinv
    cases hic : is_current_profile s id with
    | error e =>
      have hst : (delete_profile s id).2.1 = s := by simp [delete_profile, hic]
      rw [hst]; exact hinv
    | ok isCur =>
      cases isCur with
      | true =>
        have hst : (delete_profile s id).2.1 =
            (s.setValue selectedProfileKey none).removeTree (profilesRoot ++ [id]) := by
          simp [delete_profile, hic, clear_current_profile]
        rw [hst]
        intro id0 hid0
        rw [valueAt_removeTree_of_not_below _ _ _ _ (keyBelow_profileTree_ptr id)] at hid0
        simp [Store.setValue, Store.valueAt, lookupKey_cons] at hid0
      | false =>
        have hst : (delete_profile s id).2.1 = s.removeTree (profilesRoot ++ [id]) := by
          simp [delete_profile, hic]
        rw [hst]
        intro id0 hid0
        rw [valueAt_removeTree_of_not_below _ _ _ _ (keyBelow_profileTree_ptr id)] at hid0
        have hne : id0 ≠ id := is_current_false_ptr hic hid0
        have hmem := hinv id0 hid0
        rw [mem_childGroups] at hmem ⊢
        obtain ⟨e, he, hb1, hb2, hb3⟩ := hmem
        refine ⟨e, ?_, hb1, hb2, hb3⟩
        rw [Store.removeTree, List.mem_filter]
        refine ⟨he, ?_⟩
        have hkb : keyBelow (profilesRoot ++ [id]) e.1 = false := by
          rcases Bool.eq_false_or_eq_true (keyBelow (profilesRoot ++ [id]) e.1) with hc | hc
          · obtain ⟨_, hget⟩ := keyBelow_append_single.mp hc
            rw [hb3] at hget
            exact absurd (Option.some.inj hget) hne
          · exact hc
        simp [hkb]
  · -- delete_all_profiles
    intro s id0 hid0
    have hval : (delete_all_profiles s).1.valueAt selectedProfileKey none = none := by
      simp [delete_all_profiles, clear_current_profile, Store.setValue,
        Store.valueAt, lookupKey_cons]
    rw [hval] at hid0
    cases hid0
  · -- set_current_profile
    intro s id hinv
    cases hl : list_profiles s with
    | error e =>
      have hst : (set_current_profile s id).2.1 = s := by
        simp [set_current_profile, hl]
      rw [hst]; exact hinv
    | ok profiles =>
      by_cases hm : id ∈ profiles.map ProfileSettings.id
      · have hst : (set_current_profile s id).2.1 =
            (selectedProfileKey, some id) :: s := by
          simp [set_current_profile, hl, hm, Store.setValue]
        rw [hst]
        intro id0 hid0
        have hv : some (some id) = some (some id0) := by
          simpa [Store.valueAt, lookupKey_cons] using hid0
        have : id0 = id := by
          cases hv; rfl
        subst this
        have hmem : id0 ∈ s.childGroups profilesRoot := by
          rw [← list_profiles_map_id hl]; exact hm
        exact childGroups_mono_suffix [(selectedProfileKey, some id0)] hmem
      · have hst : (set_current_profile s id).2.1 = s := by
          simp [set_current_profile, hl, hm]
        rw [hst]; exact hinv
  · -- clear_current_profile
    intro s id0 hid0
    simp [clear_current_profile, Store.setValue, Store.valueAt, lookupKey_cons] at hid0
  · -- deleting the active profile clears the pointer
    intro s id h
    have hst : (delete_profile s id).2.1 =
        (s.setValue selectedProfileKey none).removeTree (profilesRoot ++ [id]) := by
      simp [delete_profile, h, clear_current_profile]
    rw [hst]
    unfold get_current_profile
    rw [valueAt_removeTree_of_not_below _ _ _ _ (keyBelow_profileTree_ptr id)]
    simp [Store.setValue, Store.valueAt, lookupKey_cons]

/-- C5, witness: the theorem applied at concrete stores with and without an
active pointer. -/
theorem spec_c5_witness :
    ActivePtrInv (set_current_profile storeTwoProfiles "a1").2.1 ∧
    get_current_profile (delete_profile storeWithActive "a1").2.1 = .ok none :=
  ⟨spec_c5.2.2.2.1 storeTwoProfiles "a1" (fun id h => nomatch h),
   spec_c5.2.2.2.2.2 storeWithActive "a1" (by decide)⟩

/-! ### Claim C7 -/

theorem latest_loop_eq_foldl (l : List ProfileSettings) (init : ProfileSettings)
    (h : ∀ p ∈ l, p.created_date.isSome) (hinit : init.created_date.isSome) :
    latest_loop l init = .ok (l.foldl stepLatest init) := by
  induction l generalizing init with
  | nil => rfl
  | cons p rest ih =>
    have hp : p.created_date.isSome := h p (by simp)
    obtain ⟨a, ha⟩ := Option.isSome_iff_exists.mp hp
    obtain ⟨b, hb⟩ := Option.isSome_iff_exists.mp hinit
    have hrest : ∀ q ∈ rest, q.created_date.isSome :=
      fun q hq => h q (List.mem_cons_of_mem _ hq)
    unfold latest_loop
    rw [ha, hb]
    by_cases hlt : PyDateTime.key b < PyDateTime.key a
    · have hstep : stepLatest init p = p := by
        simp [stepLatest, cdKey, ha, hb, hlt]
      simp only [pyGtDate, hlt, decide_eq_true_eq, decide_True]
      rw [List.foldl_cons, hstep]
      exact ih _ hrest hp
    · have hstep : stepLatest init p = init := by
        simp [stepLatest, cdKey, ha, hb, hlt]
      simp only [pyGtDate, hlt, decide_eq_true_eq, decide_False]
      rw [List.foldl_cons, hstep]
      exact ih _ hrest hinit

theorem foldl_stepLatest_first_max (l : List ProfileSettings)
    (init : ProfileSettings) :
    ∃ k : Nat, (init :: l).get? k = some (l.foldl stepLatest init) ∧
      (∀ j v, (init :: l).get? j = some v →
        cdKey v ≤ cdKey (l.foldl stepLatest init)) ∧
      (∀ j v, j < k → (init :: l).get? j = some v →
        cdKey v < cdKey (l.foldl stepLatest init)) := by
  induction l generalizing init with
  | nil =>
    refine ⟨0, rfl, ?_, ?_⟩
    · intro j v hj
      cases j with
      | zero =>
        cases hj
        exact le_refl _
      | succ j => simp at hj
    · intro j v hjk _
      exact absurd hjk (Nat.not_lt_zero j)
  | cons q rest ih =>
    rw [List.foldl_cons]
    obtain ⟨k', hk1, hk2, hk3⟩ := ih (stepLatest init q)
    by_cases hc : cdKey init < cdKey q
    · have hsq : stepLatest init q = q := by simp [stepLatest, hc]
      rw [hsq] at hk1 hk2 hk3 ⊢
      refine ⟨k' + 1, by simpa using hk1, ?_, ?_⟩
      · intro j v hj
        cases j with
        | zero =>
          cases hj
          exact le_trans (le_of_lt hc) (hk2 0 q rfl)
        | succ j => exact hk2 j v (by simpa using hj)
      · intro j v hjk hj
        cases j with
        | zero =>
          cases hj
          exact lt_of_lt_of_le hc (hk2 0 q rfl)
        | succ j => exact hk3 j v (by omega) (by simpa using hj)
    · have hsq : stepLatest init q = init := by simp [stepLatest, hc]
      rw [hsq] at hk1 hk2 hk3 ⊢
      have hq_le : cdKey q ≤ cdKey init := le_of_not_lt hc
      have hinit_le : cdKey init ≤ cdKey (rest.foldl stepLatest init) :=
        hk2 0 init rfl
      cases k' with
      | zero =>
        have hminit : init = rest.foldl stepLatest init := by
          simpa using hk1
        refine ⟨0, by simpa using congrArg some hminit, ?_, ?_⟩
        · intro j v hj
          cases j with
          | zero =>
            cases hj
            exact hinit_le
          | succ j =>
            cases j with
            | zero =>
              simp at hj
              subst hj
              exact le_trans hq_le hinit_le
            | succ j => exact hk2 (j + 1) v (by simpa using hj)
        · intro j v hjk _
          exact absurd hjk (Nat.not_lt_zero j)
      | succ k'' =>
        have hstrict : cdKey init < cdKey (rest.foldl stepLatest init) :=
          hk3 0 init (by omega) rfl
        refine ⟨k'' + 2, by simpa using hk1, ?_, ?_⟩
        · intro j v hj
          cases j with
          | zero =>
            cases hj
            exact hinit_le
          | succ j =>
            cases j with
            | zero =>
              simp at hj
              subst hj
              exact le_trans hq_le hinit_le
            | succ j => exact hk2 (j + 1) v (by simpa using hj)
        · intro j v hjk hj
          cases j with
          | zero =>
            cases hj
            exact hstrict
          | succ j =>
            cases j with
            | zero =>
              simp at hj
              subst hj
              exact lt_of_le_of_lt hq_le hstrict
            | succ j => exact hk3 (j + 1) v (by omega) (by simpa using hj)

/-- C7: when `list_profiles` succeeds, `get_latest_profile` returns none on an
empty profile collection, and on a non-empty collection whose decoded
`created_date` values are all present it returns the profile at the first
index achieving the maximum `created_date` (ties broken in favor of the
first encountered in list order). -/
theorem spec_c7 (s : Store) (l : List ProfileSettings)
    (hl : list_profiles s = .ok l) :
    (l = [] → get_latest_profile s = .ok none) ∧
    ((∀ p ∈ l, p.created_date.isSome) → ∀ p0 rest, l = p0 :: rest →
      ∃ k q, l.get? k = some q ∧ get_latest_profile s = .ok (some q) ∧
        (∀ j v, l.get? j = some v → cdKey v ≤ cdKey q) ∧
        (∀ j v, j < k → l.get? j = some v → cdKey v < cdKey q)) := by
  constructor
  · intro he
    subst he
    simp [get_latest_profile, hl]
  · intro hsome p0 rest hcons
    subst hcons
    have hp0 : p0.created_date.isSome := hsome p0 (by simp)
    have hloop : latest_loop (p0 :: rest) p0 =
        .ok ((p0 :: rest).foldl stepLatest p0) :=
      latest_loop_eq_foldl _ _ hsome hp0
    have hfold1 : (p0 :: rest).foldl stepLatest p0 = rest.foldl stepLatest p0 := by
      rw [List.foldl_cons]
      congr 1
      simp [stepLatest]
    have hgl : get_latest_profile s = .ok (some (rest.foldl stepLatest p0)) := by
      unfold get_latest_profile
      rw [hl]
      simp [hloop, hfold1]
    obtain ⟨k, hk1, hk2, hk3⟩ := foldl_stepLatest_first_max rest p0
    exact ⟨k, _, hk1, hgl, hk2, hk3⟩

/-- C7, witness: the theorem applied at the concrete two-profile store. -/
theorem spec_c7_witness :
    ∃ k q, listTwoProfiles.get? k = some q ∧
      get_latest_profile storeTwoProfiles = .ok (some q) ∧
      (∀ j v, listTwoProfiles.get? j = some v → cdKey v ≤ cdKey q) ∧
      (∀ j v, j < k → listTwoProfiles.get? j = some v → cdKey v < cdKey q) :=
  (spec_c7 storeTwoProfiles listTwoProfiles (by decide)).2 (by decide) _ _ rfl

/-! ### Claim C4 -/

theorem lookupKey_scalarEntries_short {p : ProfileSettings} {d : PyDateTime}
    {k : Key} (hk : k.length ≠ 4) :
    (profileScalarEntries p d).lookupKey k = none := by
  rw [lookupKey_eq_none_iff]
  intro e he heq
  simp [profileScalarEntries] at he
  rcases he with h | h | h <;>
    (rw [h] at heq; apply hk; rw [← heq]; simp [profileSettingsBase])

theorem templateEntries_cons (p : ProfileSettings) (t : TemplateSettings)
    (ts : List TemplateSettings) :
    templateEntries p (t :: ts) = templateEntries p ts ++
      [(templateSettingsBase p.id (strOfValue t.id) ++ ["id"], t.id),
       (templateSettingsBase p.id (strOfValue t.id) ++ ["name"], t.name)] := by
  simp [templateEntries, List.reverse_cons, List.map_append, List.flatten_append]

theorem symbologyEntries_cons (p : ProfileSettings) (t : SymbologySettings)
    (ts : List SymbologySettings) :
    symbologyEntries p (t :: ts) = symbologyEntries p ts ++
      [(symbologySettingsBase p.id (strOfValue t.id) ++ ["id"], t.id),
       (symbologySettingsBase p.id (strOfValue t.id) ++ ["name"], t.name)] := by
  simp [symbologyEntries, List.reverse_cons, List.map_append, List.flatten_append]

theorem lookupKey_templateEntries_notid {p : ProfileSettings}
    {l : List TemplateSettings} {tid x : String}
    (hn : ∀ t ∈ l, strOfValue t.id ≠ tid) :
    (templateEntries p l).lookupKey (templateSettingsBase p.id tid ++ [x]) = none := by
  rw [lookupKey_eq_none_iff]
  intro e he heq
  rw [mem_templateEntries] at he
  obtain ⟨t, ht, h | h⟩ := he <;>
    (rw [h] at heq; simp [templateSettingsBase] at heq; exact hn t ht heq.1)

theorem lookupKey_symbologyEntries_notid {p : ProfileSettings}
    {l : List SymbologySettings} {tid x : String}
    (hn : ∀ t ∈ l, strOfValue t.id ≠ tid) :
    (symbologyEntries p l).lookupKey (symbologySettingsBase p.id tid ++ [x]) = none := by
  rw [lookupKey_eq_none_iff]
  intro e he heq
  rw [mem_symbologyEntries] at he
  obtain ⟨t, ht, h | h⟩ := he <;>
    (rw [h] at heq; simp [symbologySettingsBase] at heq; exact hn t ht heq.1)

theorem lookupKey_templateEntries_id {p : ProfileSettings}
    {l : List TemplateSettings} {tid : String}
    (hids : ∀ t ∈ l, (t.id).isSome)
    (hex : ∃ t ∈ l, strOfValue t.id = tid) :
    (templateEntries p l).lookupKey (templateSettingsBase p.id tid ++ ["id"]) =
      some (some tid) := by
  induction l with
  | nil =>
    obtain ⟨t, ht, _⟩ := hex
    cases ht
  | cons t ts ih =>
    by_cases hm : ∃ t' ∈ ts, strOfValue t'.id = tid
    · rw [templateEntries_cons]
      exact lookupKey_append_of_some _
        (ih (fun q hq => hids q (List.mem_cons_of_mem _ hq)) hm)
    · have hta : strOfValue t.id = tid := by
        obtain ⟨t0, ht0, hs⟩ := hex
        rcases List.mem_cons.mp ht0 with rfl | hmem
        · exact hs
        · exact absurd ⟨t0, hmem, hs⟩ hm
      have htid : t.id = some tid := by
        obtain ⟨a, ha⟩ := Option.isSome_iff_exists.mp (hids t (by simp))
        rw [ha]
        rw [ha] at hta
        simpa [strOfValue] using hta
      rw [templateEntries_cons,
        lookupKey_append_of_none _
          (lookupKey_templateEntries_notid (fun q hq hqe => hm ⟨q, hq, hqe⟩))]
      rw [hta, lookupKey_cons, if_pos rfl, htid]

theorem lookupKey_symbologyEntries_id {p : ProfileSettings}
    {l : List SymbologySettings} {tid : String}
    (hids : ∀ t ∈ l, (t.id).isSome)
    (hex : ∃ t ∈ l, strOfValue t.id = tid) :
    (symbologyEntries p l).lookupKey (symbologySettingsBase p.id tid ++ ["id"]) =
      some (some tid) := by
  induction l with
  | nil =>
    obtain ⟨t, ht, _⟩ := hex
    cases ht
  | cons t ts ih =>
    by_cases hm : ∃ t' ∈ ts, strOfValue t'.id = tid
    · rw [symbologyEntries_cons]
      exact lookupKey_append_of_some _
        (ih (fun q hq => hids q (List.mem_cons_of_mem _ hq)) hm)
    · have hta : strOfValue t.id = tid := by
        obtain ⟨t0, ht0, hs⟩ := hex
        rcases List.mem_cons.mp ht0 with rfl | hmem
        · exact hs
        · exact absurd ⟨t0, hmem, hs⟩ hm
      have htid : t.id = some tid := by
        obtain ⟨a, ha⟩ := Option.isSome_iff_exists.mp (hids t (by simp))
        rw [ha]
        rw [ha] at hta
        simpa [strOfValue] using hta
      rw [symbologyEntries_cons,
        lookupKey_append_of_none _
          (lookupKey_symbologyEntries_notid (fun q hq hqe => hm ⟨q, hq, hqe⟩))]
      rw [hta, lookupKey_cons, if_pos rfl, htid]

theorem lookupKey_symbologyEntries_at_template_key {p : ProfileSettings}
    {l : List SymbologySettings} {pid tid x : String} :
    (symbologyEntries p l).lookupKey (templateSettingsBase pid tid ++ [x]) = none := by
  rw [lookupKey_eq_none_iff]
  intro e he heq
  rw [mem_symbologyEntries] at he
  obtain ⟨t, _, h | h⟩ := he <;>
    (rw [h] at heq;
     simp [templateSettingsBase, symbologySettingsBase, TEMPLATE_GROUP_NAME,
       SYMBOLOGY_GROUP_NAME] at heq)


theorem mem_childGroups_saved_templates {s : Store} {P : ProfileSettings}
    {d : PyDateTime}
    (hfresh : ∀ e ∈ s, keyBelow (profileSettingsBase P.id) e.1 = false)
    (tid : String) :
    tid ∈ (profileScalarEntries P d ++
        (symbologyEntries P P.symbology ++
          (templateEntries P P.templates ++ s))).childGroups
      (profileSettingsBase P.id ++ [TEMPLATE_GROUP_NAME]) ↔
      ∃ t ∈ P.templates, strOfValue t.id = tid := by
  rw [mem_childGroups]
  constructor
  · rintro ⟨e, he, hb1, hb2, hb3⟩
    rcases List.mem_append.mp he with hsc | he2
    · simp [profileScalarEntries] at hsc
      rcases hsc with h | h | h <;>
        (rw [h] at hb2; simp [profileSettingsBase] at hb2)
    · rcases List.mem_append.mp he2 with hsy | he3
      · rw [mem_symbologyEntries] at hsy
        obtain ⟨t, _, h | h⟩ := hsy <;>
          (rw [h] at hb1;
           simp [profileSettingsBase, symbologySettingsBase,
             TEMPLATE_GROUP_NAME, SYMBOLOGY_GROUP_NAME] at hb1)
      · rcases List.mem_append.mp he3 with ht | hs
        · rw [mem_templateEntries] at ht
          obtain ⟨t, htmem, h | h⟩ := ht <;>
            · rw [h] at hb3
              refine ⟨t, htmem, ?_⟩
              simp [templateSettingsBase, profileSettingsBase] at hb3
              exact hb3
        · have h1 := hfresh e hs
          have h2 : keyBelow (profileSettingsBase P.id) e.1 = true :=
            keyBelow_of_append [TEMPLATE_GROUP_NAME] hb1
          rw [h1] at h2
          cases h2
  · rintro ⟨t, ht, rfl⟩
    refine ⟨(templateSettingsBase P.id (strOfValue t.id) ++ ["id"], t.id),
      ?_, ?_, ?_, ?_⟩
    · exact List.mem_append_right _ (List.mem_append_right _
        (List.mem_append_left _ (mem_templateEntries.mpr ⟨t, ht, Or.inl rfl⟩)))
    · simp [templateSettingsBase, profileSettingsBase]
    · simp [templateSettingsBase, profileSettingsBase]
    · simp [templateSettingsBase, profileSettingsBase]

theorem mem_childGroups_saved_symbology {s : Store} {P : ProfileSettings}
    {d : PyDateTime}
    (hfresh : ∀ e ∈ s, keyBelow (profileSettingsBase P.id) e.1 = false)
    (sid : String) :
    sid ∈ (profileScalarEntries P d ++
        (symbologyEntries P P.symbology ++
          (templateEntries P P.templates ++ s))).childGroups
      (profileSettingsBase P.id ++ [SYMBOLOGY_GROUP_NAME]) ↔
      ∃ t ∈ P.symbology, strOfValue t.id = sid := by
  rw [mem_childGroups]
  constructor
  · rintro ⟨e, he, hb1, hb2, hb3⟩
    rcases List.mem_append.mp he with hsc | he2
    · simp [profileScalarEntries] at hsc
      rcases hsc with h | h | h <;>
        (rw [h] at hb2; simp [profileSettingsBase] at hb2)
    · rcases List.mem_append.mp he2 with hsy | he3
      · rw [mem_symbologyEntries] at hsy
        obtain ⟨t, htmem, h | h⟩ := hsy <;>
          · rw [h] at hb3
            refine ⟨t, htmem, ?_⟩
            simp [symbologySettingsBase, profileSettingsBase] at hb3
            exact hb3
      · rcases List.mem_append.mp he3 with ht | hs
        · rw [mem_templateEntries] at ht
          obtain ⟨t, _, h | h⟩ := ht <;>
            (rw [h] at hb1;
             simp [profileSettingsBase, templateSettingsBase,
               TEMPLATE_GROUP_NAME, SYMBOLOGY_GROUP_NAME] at hb1)
        · have h1 := hfresh e hs
          have h2 : keyBelow (profileSettingsBase P.id) e.1 = true :=
            keyBelow_of_append [SYMBOLOGY_GROUP_NAME] hb1
          rw [h1] at h2
          cases h2
  · rintro ⟨t, ht, rfl⟩
    refine ⟨(symbologySettingsBase P.id (strOfValue t.id) ++ ["id"], t.id),
      ?_, ?_, ?_, ?_⟩
    · exact List.mem_append_right _ (List.mem_append_left _
        (mem_symbologyEntries.mpr ⟨t, ht, Or.inl rfl⟩))
    · simp [symbologySettingsBase, profileSettingsBase]
    · simp [symbologySettingsBase, profileSettingsBase]
    · simp [symbologySettingsBase, profileSettingsBase]


/-- C4: for every valid profile record P (name, path and created_date
present, field-valid date, children carrying string ids), saved into a store
whose subtree for P's id is fresh, `get_profile_settings` after
`save_profile_settings` returns a profile with the same name, the same path,
the same set of template ids and symbology ids, and a `created_date` that
parses back to exactly P's instant. -/
theorem spec_c4 (s : Store) (P : ProfileSettings) (d : PyDateTime)
    (hd : P.created_date = some d) (hdv : d.Valid)
    (hname : P.name.isSome) (hpath : P.path.isSome)
    (htids : ∀ t ∈ P.templates, (t.id).isSome)
    (hsids : ∀ t ∈ P.symbology, (t.id).isSome)
    (hfresh : ∀ e ∈ s, keyBelow (profileSettingsBase P.id) e.1 = false) :
    ∃ s' Q, save_profile_settings s P = (.ok (), s', 1) ∧
      get_profile_settings s' P.id = .ok Q ∧
      Q.name = P.name ∧ Q.path = P.path ∧ Q.created_date = P.created_date ∧
      (∀ i, i ∈ Q.templates.map TemplateSettings.id ↔
        i ∈ P.templates.map TemplateSettings.id) ∧
      (∀ i, i ∈ Q.symbology.map SymbologySettings.id ↔
        i ∈ P.symbology.map SymbologySettings.id) := by
  have hsave : save_profile_settings s P =
      (.ok (), profileScalarEntries P d ++
        (symbologyEntries P P.symbology ++
          (templateEntries P P.templates ++ s)), 1) := by
    unfold save_profile_settings
    rw [hd]
    simp [foldl_save_template_eq, foldl_save_symbology_eq, profileScalarEntries,
      Store.setValue]
  set S' : Store := profileScalarEntries P d ++
    (symbologyEntries P P.symbology ++ (templateEntries P P.templates ++ s))
    with hS'
  have hcd : S'.valueAt (profileSettingsBase P.id ++ ["created_date"]) none =
      some (strftimeDate d) := by
    unfold Store.valueAt
    rw [hS', lookupKey_append_of_some _
      (show (profileScalarEntries P d).lookupKey
          (profileSettingsBase P.id ++ ["created_date"]) =
        some (some (strftimeDate d)) by
        simp [profileScalarEntries, lookupKey_cons])]
  have hnm : S'.valueAt (profileSettingsBase P.id ++ ["name"]) none = P.name := by
    unfold Store.valueAt
    rw [hS', lookupKey_append_of_some _
      (show (profileScalarEntries P d).lookupKey
          (profileSettingsBase P.id ++ ["name"]) = some P.name by
        simp [profileScalarEntries, lookupKey_cons, profileSettingsBase])]
  have hpt : S'.valueAt (profileSettingsBase P.id ++ ["path"]) none = P.path := by
    unfold Store.valueAt
    rw [hS', lookupKey_append_of_some _
      (show (profileScalarEntries P d).lookupKey
          (profileSettingsBase P.id ++ ["path"]) = some P.path by
        simp [profileScalarEntries, lookupKey_cons, profileSettingsBase])]
  have hvalT : ∀ tid, (∃ t ∈ P.templates, strOfValue t.id = tid) →
      S'.valueAt (templateSettingsBase P.id tid ++ ["id"]) none = some tid := by
    intro tid hex
    unfold Store.valueAt
    rw [hS',
      lookupKey_append_of_none _
        (lookupKey_scalarEntries_short (by simp [templateSettingsBase])),
      lookupKey_append_of_none _ lookupKey_symbologyEntries_at_template_key,
      lookupKey_append_of_some _ (lookupKey_templateEntries_id htids hex)]
  have hvalS : ∀ sid, (∃ t ∈ P.symbology, strOfValue t.id = sid) →
      S'.valueAt (symbologySettingsBase P.id sid ++ ["id"]) none = some sid := by
    intro sid hex
    unfold Store.valueAt
    rw [hS',
      lookupKey_append_of_none _
        (lookupKey_scalarEntries_short (by simp [symbologySettingsBase])),
      lookupKey_append_of_some _ (lookupKey_symbologyEntries_id hsids hex)]
  have hdecode : get_profile_settings S' P.id =
      .ok ⟨P.id, P.name, P.path, get_templates S' P.id, get_symbology S' P.id,
        some d⟩ := by
    unfold get_profile_settings ProfileSettings.from_qgs_settings
    rw [hcd]
    simp only [strptime_strftime hdv, hnm, hpt]
  refine ⟨S', _, hsave, hdecode, rfl, rfl, hd.symm, ?_, ?_⟩
  · -- template id sets agree
    intro i
    have hmapT : (get_templates S' P.id).map TemplateSettings.id =
        (S'.childGroups (profileSettingsBase P.id ++ [TEMPLATE_GROUP_NAME])).map
          (fun tid => some tid) := by
      unfold get_templates
      rw [List.map_map]
      apply List.map_congr_left
      intro tid htid
      have hex := (mem_childGroups_saved_templates hfresh tid).mp htid
      simpa using hvalT tid hex
    rw [hmapT]
    simp only [List.mem_map]
    constructor
    · rintro ⟨tid, htid, rfl⟩
      obtain ⟨t, ht, hs⟩ := (mem_childGroups_saved_templates hfresh tid).mp htid
      refine ⟨t, ht, ?_⟩
      obtain ⟨a, ha⟩ := Option.isSome_iff_exists.mp (htids t ht)
      rw [ha] at hs ⊢
      simp only [strOfValue, Option.getD_some] at hs
      rw [hs]
    · rintro ⟨t, ht, rfl⟩
      obtain ⟨a, ha⟩ := Option.isSome_iff_exists.mp (htids t ht)
      refine ⟨a, ?_, by rw [ha]⟩
      exact (mem_childGroups_saved_templates hfresh a).mpr
        ⟨t, ht, by rw [ha]; rfl⟩
  · -- symbology id sets agree
    intro i
    have hmapS : (get_symbology S' P.id).map SymbologySettings.id =
        (S'.childGroups (profileSettingsBase P.id ++ [SYMBOLOGY_GROUP_NAME])).map
          (fun sid => some sid) := by
      unfold get_symbology
      rw [List.map_map]
      apply List.map_congr_left
      intro sid hsid
      have hex := (mem_childGroups_saved_symbology hfresh sid).mp hsid
      simpa using hvalS sid hex
    rw [hmapS]
    simp only [List.mem_map]
    constructor
    · rintro ⟨sid, hsid, rfl⟩
      obtain ⟨t, ht, hs⟩ := (mem_childGroups_saved_symbology hfresh sid).mp hsid
      refine ⟨t, ht, ?_⟩
      obtain ⟨a, ha⟩ := Option.isSome_iff_exists.mp (hsids t ht)
      rw [ha] at hs ⊢
      simp only [strOfValue, Option.getD_some] at hs
      rw [hs]
    · rintro ⟨t, ht, rfl⟩
      obtain ⟨a, ha⟩ := Option.isSome_iff_exists.mp (hsids t ht)
      refine ⟨a, ?_, by rw [ha]⟩
      exact (mem_childGroups_saved_symbology hfresh a).mpr
        ⟨t, ht, by rw [ha]; rfl⟩

/-- C4, witness: the theorem applied to a concrete profile with one template
and one symbology child saved into the empty store. -/
theorem spec_c4_witness :
    ∃ s' Q, save_profile_settings ([] : Store) profileFresh = (.ok (), s', 1) ∧
      get_profile_settings s' profileFresh.id = .ok Q ∧
      Q.name = profileFresh.name ∧ Q.path = profileFresh.path ∧
      Q.created_date = profileFresh.created_date ∧
      (∀ i, i ∈ Q.templates.map TemplateSettings.id ↔
        i ∈ profileFresh.templates.map TemplateSettings.id) ∧
      (∀ i, i ∈ Q.symbology.map SymbologySettings.id ↔
        i ∈ profileFresh.symbology.map SymbologySettings.id) :=
  spec_c4 [] profileFresh ⟨2023, 6, 7, 8, 9, 10, 11⟩ (by decide) (by decide)
    (by decide) (by decide) (by decide) (by decide) (by simp)

end QTS
